import Mathlib

/-!
# Verification of the libcernvm VirtualBox hypervisor engine

Shallow embedding of `src/src/Hypervisor/Virtualbox/VBoxInstance.cpp`
(session registry reconciliation, session open/close/delete, readiness
workflow, extension-pack installation, CPU capability probing and
guest-property parsing), together with theorems settling the claims of
the specification against it.

Conventions:
* `std::map<string, _>` is embedded as a key-sorted association list
  (`mapInsert` keeps keys sorted exactly as `std::map` iteration order).
* `std::string` operations (`find`, `substr`) are embedded with C++
  semantics: `substr` returns `none` where C++ throws `out_of_range`
  (position past the end), and `size_t` subtraction wraps modulo `2^64`
  (`sizeSub`).
* Machine `int` counters are embedded as `Int`.
-/

namespace VBox

/-! ## Error codes.

Modelled from the spec: the numeric `HVE_*` status codes are defined in
`CernVM/Errors.h`, which is not under `src/`; the spec's error taxonomy
(QueryError, ExternalError, NotValidated/NotTrusted, AlreadyExists) only
relies on the codes being pairwise distinct, with `HVE_OK = 0` for
completion. -/

def HVE_OK : Int := 0
def HVE_ALREADY_EXISTS : Int := 2
def HVE_QUERY_ERROR : Int := -5
def HVE_EXTERNAL_ERROR : Int := -7
def HVE_NOT_VALIDATED : Int := -12
def HVE_NOT_TRUSTED : Int := -13

/-- Modelled from the spec: the `SS_MISSING` lifecycle state constant is
declared in `CernVM/Hypervisor.h` (not under `src/`); only its identity
matters for the claims. -/
def SS_MISSING : Int := 0

/-! ## Sorted association lists (embedding of `std::map<std::string, α>`) -/

/-- Lexicographic comparison of character lists by code point, the
embedding of `std::string::operator<` (byte-wise lexicographic; the
strings this engine compares are ASCII, where the two orders agree). It
is written out so that the kernel can evaluate it on literals. -/
def charListLt : List Char → List Char → Bool
  | _, [] => false
  | [], _ :: _ => true
  | c :: cs, d :: ds =>
    if c.toNat < d.toNat then true
    else if d.toNat < c.toNat then false
    else charListLt cs ds

/-- `std::string` ordering used by `std::map<std::string, _>` keys. -/
def strLt (a b : String) : Bool := charListLt a.data b.data

/-- `std::map` insertion (`m[k] = v`): keeps the list sorted by key, and
replaces the value when the key is already present. -/
def mapInsert {α : Type} : List (String × α) → String → α → List (String × α)
  | [], k, v => [(k, v)]
  | (k', v') :: rest, k, v =>
    if strLt k k' then (k, v) :: (k', v') :: rest
    else if k = k' then (k, v) :: rest
    else (k', v') :: mapInsert rest k v

/-- `m.find(k) != m.end()` — membership of a key. -/
def containsKey {α : Type} (m : List (String × α)) (k : String) : Bool :=
  m.any (fun p => p.1 = k)

/-- `m.find(k)` — lookup of a key's value. -/
def lookupKey {α : Type} (m : List (String × α)) (k : String) : Option α :=
  (m.find? (fun p => p.1 = k)).map (·.2)

/-- `m.erase(it)` at the (first) entry holding key `k`. -/
def eraseKey {α : Type} : List (String × α) → String → List (String × α)
  | [], _ => []
  | (k', v') :: rest, k => if k' = k then rest else (k', v') :: eraseKey rest k

/-- In-place value replacement at a key, preserving entry order. -/
def updateKey {α : Type} : List (String × α) → String → α → List (String × α)
  | [], _, _ => []
  | (k', v') :: rest, k, v => if k' = k then (k, v) :: rest else (k', v') :: updateKey rest k v

theorem charToNat_inj {a b : Char} (h : a.toNat = b.toNat) : a = b :=
  Char.ext (UInt32.toNat.inj h)

theorem charListLt_irrefl : ∀ cs : List Char, charListLt cs cs = false
  | [] => rfl
  | c :: cs => by
    simp only [charListLt]
    rw [if_neg (lt_irrefl c.toNat), if_neg (lt_irrefl c.toNat)]
    exact charListLt_irrefl cs

theorem charListLt_trans {a b c : List Char} (hab : charListLt a b = true)
    (hbc : charListLt b c = true) : charListLt a c = true := by
  induction a generalizing b c with
  | nil =>
    cases c with
    | nil =>
      rw [show charListLt b [] = false from by cases b <;> rfl] at hbc
      exact absurd hbc (by simp)
    | cons c0 cs => rfl
  | cons a0 as ih =>
    cases b with
    | nil => exact absurd hab (by simp [charListLt])
    | cons b0 bs =>
      cases c with
      | nil =>
        rw [show charListLt (b0 :: bs) [] = false from rfl] at hbc
        exact absurd hbc (by simp)
      | cons c0 cs =>
        simp only [charListLt] at hab hbc ⊢
        by_cases h1 : a0.toNat < b0.toNat
        · by_cases h2 : b0.toNat < c0.toNat
          · rw [if_pos (show a0.toNat < c0.toNat by omega)]
          · rw [if_neg h2] at hbc
            by_cases h3 : c0.toNat < b0.toNat
            · rw [if_pos h3] at hbc
              exact absurd hbc (by simp)
            · rw [if_neg h3] at hbc
              rw [if_pos (show a0.toNat < c0.toNat by omega)]
        · rw [if_neg h1] at hab
          by_cases h4 : b0.toNat < a0.toNat
          · rw [if_pos h4] at hab
            exact absurd hab (by simp)
          · rw [if_neg h4] at hab
            by_cases h2 : b0.toNat < c0.toNat
            · rw [if_pos (show a0.toNat < c0.toNat by omega)]
            · rw [if_neg h2] at hbc
              by_cases h3 : c0.toNat < b0.toNat
              · rw [if_pos h3] at hbc
                exact absurd hbc (by simp)
              · rw [if_neg h3] at hbc
                rw [if_neg (show ¬a0.toNat < c0.toNat by omega),
                  if_neg (show ¬c0.toNat < a0.toNat by omega)]
                exact ih hab hbc

theorem charListLt_total {a b : List Char} (hab : charListLt a b = false)
    (hba : charListLt b a = false) : a = b := by
  induction a generalizing b with
  | nil =>
    cases b with
    | nil => rfl
    | cons b0 bs => exact absurd hab (by simp [charListLt])
  | cons a0 as ih =>
    cases b with
    | nil => exact absurd hba (by simp [charListLt])
    | cons b0 bs =>
      simp only [charListLt] at hab hba
      by_cases h1 : a0.toNat < b0.toNat
      · rw [if_pos h1] at hab
        exact absurd hab (by simp)
      · by_cases h2 : b0.toNat < a0.toNat
        · rw [if_pos h2] at hba
          exact absurd hba (by simp)
        · rw [if_neg h1, if_neg h2] at hab
          rw [if_neg h2, if_neg h1] at hba
          have he : a0 = b0 := charToNat_inj (by omega)
          rw [he, ih hab hba]

theorem strLt_trans {a b c : String} (hab : strLt a b = true)
    (hbc : strLt b c = true) : strLt a c = true :=
  charListLt_trans hab hbc

theorem strLt_irrefl (a : String) : strLt a a = false :=
  charListLt_irrefl a.data

theorem strLt_ne {a b : String} (h : strLt a b = true) : a ≠ b := by
  intro he
  subst he
  rw [strLt_irrefl] at h
  exact absurd h (by simp)

theorem strLt_total {a b : String} (hab : strLt a b = false)
    (hba : strLt b a = false) : a = b := by
  have h := charListLt_total hab hba
  cases a
  cases b
  exact congrArg String.mk h

theorem length_eraseKey_of_containsKey {α : Type} (m : List (String × α)) (k : String)
    (h : containsKey m k = true) : (eraseKey m k).length = m.length - 1 := by
  induction m with
  | nil => simp [containsKey] at h
  | cons p rest ih =>
    by_cases hpk : p.1 = k
    · simp [eraseKey, hpk]
    · have h' : containsKey rest k = true := by
        simp [containsKey] at h ⊢
        rcases h with h | h
        · exact absurd h hpk
        · exact h
      simp only [eraseKey]
      rw [if_neg hpk]
      have hne : rest.length ≠ 0 := by
        intro h0
        rw [List.length_eq_zero] at h0
        subst h0
        simp [containsKey] at h'
      simp [ih h']
      omega

theorem containsKey_of_mem {α : Type} {m : List (String × α)} {p : String × α}
    (h : p ∈ m) : containsKey m p.1 = true := by
  rw [containsKey, List.any_eq_true]
  exact ⟨p, h, by simp⟩

theorem mem_of_lookupKey {α : Type} {m : List (String × α)} {k : String} {v : α}
    (h : lookupKey m k = some v) : (k, v) ∈ m := by
  induction m with
  | nil => simp [lookupKey] at h
  | cons p rest ih =>
    simp only [lookupKey, List.find?] at h
    by_cases hpk : p.1 = k
    · simp [hpk] at h
      have hp : p = (k, v) := by
        cases p
        simp at hpk h
        simp [hpk, h]
      rw [← hp]
      exact List.mem_cons_self p rest
    · simp [hpk] at h
      exact List.mem_cons_of_mem p (ih (by simpa [lookupKey] using h))

theorem mem_mapInsert {α : Type} {m : List (String × α)} {k : String} {v : α} {p : String × α}
    (h : p ∈ mapInsert m k v) : p = (k, v) ∨ p ∈ m := by
  induction m with
  | nil => simp [mapInsert] at h; simp [h]
  | cons q rest ih =>
    simp only [mapInsert] at h
    by_cases h1 : strLt k q.1 = true
    · simp only [if_pos h1, List.mem_cons] at h
      rcases h with h | h | h
      · exact Or.inl h
      · exact Or.inr (by simp [h])
      · exact Or.inr (by simp [h])
    · by_cases h2 : k = q.1
      · rw [if_neg h1, if_pos h2] at h
        rcases List.mem_cons.mp h with h | h
        · exact Or.inl h
        · exact Or.inr (by simp [h])
      · rw [if_neg h1, if_neg h2] at h
        rcases List.mem_cons.mp h with h | h
        · exact Or.inr (by simp [h])
        · rcases ih h with h | h
          · exact Or.inl h
          · exact Or.inr (by simp [h])

theorem mem_eraseKey {α : Type} {m : List (String × α)} {k : String} {p : String × α}
    (h : p ∈ eraseKey m k) : p ∈ m := by
  induction m with
  | nil => simp [eraseKey] at h
  | cons q rest ih =>
    simp only [eraseKey] at h
    by_cases hq : q.1 = k
    · rw [if_pos hq] at h
      exact List.mem_cons_of_mem q h
    · rw [if_neg hq] at h
      rcases List.mem_cons.mp h with h | h
      · rw [h]; exact List.mem_cons_self q rest
      · exact List.mem_cons_of_mem q (ih h)

theorem mem_updateKey {α : Type} {m : List (String × α)} {k : String} {v : α} {p : String × α}
    (h : p ∈ updateKey m k v) : p = (k, v) ∨ p ∈ m := by
  induction m with
  | nil => simp [updateKey] at h
  | cons q rest ih =>
    simp only [updateKey] at h
    by_cases hq : q.1 = k
    · rw [if_pos hq] at h
      rcases List.mem_cons.mp h with h | h
      · exact Or.inl h
      · exact Or.inr (List.mem_cons_of_mem q h)
    · rw [if_neg hq] at h
      rcases List.mem_cons.mp h with h | h
      · exact Or.inr (by rw [h]; exact List.mem_cons_self q rest)
      · rcases ih h with h | h
        · exact Or.inl h
        · exact Or.inr (List.mem_cons_of_mem q h)

theorem lookupKey_mapInsert {α : Type} (m : List (String × α)) (k : String) (v : α) :
    lookupKey (mapInsert m k v) k = some v := by
  induction m with
  | nil => simp [mapInsert, lookupKey]
  | cons q rest ih =>
    simp only [mapInsert]
    by_cases h1 : strLt k q.1 = true
    · simp [h1, lookupKey]
    · by_cases h2 : k = q.1
      · rw [if_neg h1, if_pos h2]
        simp [lookupKey]
      · have hne : q.1 ≠ k := fun h => h2 h.symm
        simp [h1, h2, lookupKey, List.find?, hne]
        simpa [lookupKey] using ih

theorem containsKey_updateKey {α : Type} (m : List (String × α)) (k j : String) (v : α) :
    containsKey (updateKey m k v) j = containsKey m j := by
  induction m with
  | nil => simp [updateKey]
  | cons q rest ih =>
    simp only [updateKey]
    by_cases hq : q.1 = k
    · simp [containsKey, hq]
    · rw [if_neg hq]
      simp only [containsKey, List.any_cons] at ih ⊢
      rw [ih]

/-! ## C++ `std::string` operations -/

/-- Does the first list of characters start with the second? -/
def startsWithChars : List Char → List Char → Bool
  | _, [] => true
  | [], _ :: _ => false
  | c :: cs, d :: ds => c == d && startsWithChars cs ds

/-- Scan for the first occurrence of `pat`, starting at index `i`. -/
def findFrom : List Char → List Char → Nat → Option Nat
  | [], pat, i => if pat.isEmpty then some i else none
  | c :: cs, pat, i =>
    if startsWithChars (c :: cs) pat then some i else findFrom cs pat (i + 1)

/-- `s.find(pat)`: index of the first occurrence, `none` for `std::string::npos`. -/
def cppFind (s pat : String) : Option Nat :=
  findFrom s.data pat.data 0

/-- `size_t` subtraction `a - b`, wrapping modulo `2 ^ 64`. -/
def sizeSub (a b : Nat) : Nat :=
  (a + 2 ^ 64 - b) % 2 ^ 64

/-- `s.substr(pos, count)`: throws `std::out_of_range` (here `none`) when
`pos` exceeds the length; otherwise returns at most `count` characters
starting at `pos`. -/
def cppSubstr (s : String) (pos count : Nat) : Option String :=
  if pos ≤ s.data.length then some ⟨(s.data.drop pos).take count⟩ else none

/-- `s.substr(pos)` (count = `npos`): the suffix from `pos`. -/
def cppSubstrFrom (s : String) (pos : Nat) : Option String :=
  if pos ≤ s.data.length then some ⟨s.data.drop pos⟩ else none

theorem findFrom_start_le {cs pat : List Char} {i j : Nat}
    (h : findFrom cs pat i = some j) : i ≤ j := by
  induction cs generalizing i with
  | nil =>
    simp only [findFrom] at h
    by_cases hp : pat.isEmpty
    · simp [hp] at h; omega
    · simp [hp] at h
  | cons c cs ih =>
    simp only [findFrom] at h
    by_cases hs : startsWithChars (c :: cs) pat
    · simp [hs] at h; omega
    · simp [hs] at h
      have := ih h
      omega

theorem startsWithChars_length {cs pat : List Char}
    (h : startsWithChars cs pat = true) : pat.length ≤ cs.length := by
  induction pat generalizing cs with
  | nil => simp
  | cons d ds ih =>
    cases cs with
    | nil => simp [startsWithChars] at h
    | cons c cs =>
      simp only [startsWithChars, Bool.and_eq_true] at h
      have := ih h.2
      simp
      omega

theorem findFrom_fits {cs pat : List Char} {i j : Nat}
    (h : findFrom cs pat i = some j) : j - i + pat.length ≤ cs.length := by
  induction cs generalizing i with
  | nil =>
    simp only [findFrom] at h
    by_cases hp : pat.isEmpty
    · simp [hp] at h
      rw [List.isEmpty_iff] at hp
      simp [hp, ← h]
    · simp [hp] at h
  | cons c cs ih =>
    simp only [findFrom] at h
    by_cases hs : startsWithChars (c :: cs) pat
    · rw [if_pos hs] at h
      have hij : i = j := Option.some.inj h
      have hlen := startsWithChars_length hs
      simp only [List.length_cons] at hlen ⊢
      omega
    · simp [hs] at h
      have h1 := ih h
      have h2 := findFrom_start_le h
      simp
      omega

/-- `s.find(pat) = some j` means `pat` fits inside `s` at position `j`. -/
theorem cppFind_fits {s pat : String} {j : Nat}
    (h : cppFind s pat = some j) : j + pat.data.length ≤ s.data.length := by
  have := findFrom_fits h
  omega

theorem lookupKey_updateKey {α : Type} (m : List (String × α)) (k : String) (v : α)
    (h : containsKey m k = true) : lookupKey (updateKey m k v) k = some v := by
  induction m with
  | nil => simp [containsKey] at h
  | cons q rest ih =>
    simp only [updateKey]
    by_cases hq : q.1 = k
    · simp [hq, lookupKey]
    · have h' : containsKey rest k = true := by
        simp [containsKey] at h ⊢
        rcases h with h | h
        · exact absurd h hq
        · exact h
      simp [hq, lookupKey, List.find?]
      simpa [lookupKey] using ih h'

/-! ## Session registry data model

A `VSession` embeds the session fields the engine reads: `uuid`
(`session->uuid`, the internalId), `vboxid`
(`session->parameters->get("vboxid")`, the hypervisor externalId, `""`
when unbound), `state` (`session->local->getNum<int>("state")`), and
`instances` (the open reference count, a C++ `int`). -/

structure VSession where
  uuid : String
  vboxid : String
  state : Int
  instances : Int
  deriving Repr, DecidableEq

/-- A persisted `vbsess-*` descriptor (`LocalConfig`): an open key/value
record, of which `loadSessions` reads `name` and `uuid` (skipping the
descriptor when either is absent) and the session constructor reads the
rest (embedded here as the fields a `VSession` needs). -/
structure Descriptor where
  name : Option String
  uuid : Option String
  vboxid : String
  state : Int
  deriving Repr, DecidableEq

/-- The registry state: `sessions` is the `std::map<std::string,
HVSessionPtr> sessions` member (key-sorted association list),
`openSessions` the `std::list<HVSessionPtr> openSessions` member (kept
as the sessions' uuids, in open order), and `disk` the persisted
`vbsess-<uuid>` descriptor store keyed by the file-name suffix. -/
structure RegState where
  sessions : List (String × VSession)
  openSessions : List String
  disk : List (String × Descriptor)
  deriving Repr, DecidableEq

/-- `VBoxInstance::sessionDelete` (`VBoxInstance.cpp:586-624`): scan the
registry for the session's uuid; when found, drop the first open-list
entry with that uuid (notifying it of destruction), erase the registry
entry, and clear the `vbsess-<uuid>` descriptor from disk; a no-op when
the uuid is not registered. -/
def sessionDelete (st : RegState) (uuid : String) : RegState :=
  if containsKey st.sessions uuid then
    { sessions := eraseKey st.sessions uuid,
      openSessions := st.openSessions.erase uuid,
      disk := eraseKey st.disk uuid }
  else st

/-- `VBoxInstance::sessionClose` (`VBoxInstance.cpp:629-656`):
`--session->instances`, returning at once while the count stays
positive; otherwise abort the session FSM, drop the first open-list
entry with the session's uuid, and, when the session's `state` is
`SS_MISSING`, cascade into `sessionDelete`. The C++ decrements the
session object through its pointer; the embedding reads the same object
through its registry entry (a no-op on an unregistered uuid). -/
def sessionClose (st : RegState) (uuid : String) : RegState :=
  match lookupKey st.sessions uuid with
  | none => st
  | some sess =>
    if 0 < sess.instances - 1 then
      { st with
        sessions := updateKey st.sessions uuid { sess with instances := sess.instances - 1 } }
    else if sess.state = SS_MISSING then
      sessionDelete
        { st with
          sessions := updateKey st.sessions uuid { sess with instances := sess.instances - 1 },
          openSessions := st.openSessions.erase uuid } uuid
    else
      { st with
        sessions := updateKey st.sessions uuid { sess with instances := sess.instances - 1 },
        openSessions := st.openSessions.erase uuid }

/-- `VBoxInstance::allocateSession` (`VBoxInstance.cpp:358-376`): make a
fresh GUID's runtime config, set its `uuid` key, build a session over it
and register it under the GUID. The `VBoxSession` constructor is not
under `src/`; the fresh session starts with no `vboxid` binding, no open
references, and (modelled from the spec: a session is "destroyed ... by
explicit deletion once openRefCount reaches zero and lifecycleState is
Missing", so a never-started VM is Missing) `SS_MISSING` state. -/
def allocateSession (st : RegState) (guid : String) : RegState :=
  { st with
    sessions := mapInsert st.sessions guid
      { uuid := guid, vboxid := "", state := SS_MISSING, instances := 0 },
    disk := mapInsert st.disk guid
      { name := none, uuid := some guid, vboxid := "", state := SS_MISSING } }

/-- Modelled from the spec: `HVInstance::sessionOpen`, called by
`VBoxInstance::sessionOpen` (`VBoxInstance.cpp:564-581`), is declared in
`CernVM/Hypervisor.h` and not under `src/`. Per the spec, `open`
"returns a checked-out session (creating or reusing as appropriate),
increments openRefCount", and the open-session index records the
checked-out session (in open order). `fresh` supplies the fields of a
newly created session when no session with this uuid is registered. -/
def sessionOpen (st : RegState) (uuid : String) (fresh : VSession) : RegState :=
  let sess : VSession :=
    match lookupKey st.sessions uuid with
    | some s => { s with instances := s.instances + 1 }
    | none => { fresh with uuid := uuid, instances := 1 }
  { st with
    sessions := mapInsert st.sessions uuid sess,
    openSessions :=
      if st.openSessions.contains uuid then st.openSessions
      else st.openSessions ++ [uuid] }

/-- The session built from a persisted descriptor in `loadSessions` step
1 (`sessions[sessConfig->get("uuid")] = make_shared<VBoxSession>(...)`):
registered under the descriptor's `uuid` field, with no open
references. -/
def descriptorSession (u : String) (d : Descriptor) : VSession :=
  { uuid := u, vboxid := d.vboxid, state := d.state, instances := 0 }

/-- One descriptor of `loadSessions` step 1 (`VBoxInstance.cpp:685-702`):
skip (with a warning) a descriptor missing `name` or `uuid`, otherwise
insert the reconstructed session under its `uuid` field. -/
def reloadStep (m : List (String × VSession)) (d : Descriptor) : List (String × VSession) :=
  match d.name with
  | none => m
  | some _ =>
    match d.uuid with
    | none => m
    | some u => mapInsert m u (descriptorSession u d)

/-- `loadSessions` step 1: clear the in-memory map and reload every
persisted descriptor in enumeration order. -/
def reloadSessions (disk : List (String × Descriptor)) : List (String × VSession) :=
  disk.foldl (fun m p => reloadStep m p.2) []

/-- One `list vms` entry of `loadSessions` step 2
(`VBoxInstance.cpp:717-734`): trim the tokenized name
(`substr(1, length-3)`) and uuid (`substr(0, length-1)`; `size_t`
subtraction wraps, and `substr` clamps the count), skip inaccessible
machines, and store uuid → name with a later duplicate replacing an
earlier one. (`tokenize`, from `Utilities.h` outside `src/`, yields the
name/uuid token pair of each line; its name tokens carry the surrounding
quotes, so they are never empty and the `substr(1, ...)` cannot
throw.) -/
def vmMapStep (m : List (String × String)) (p : String × String) : List (String × String) :=
  let name : String := ⟨(p.1.data.drop 1).take (sizeSub p.1.data.length 3)⟩
  let uuid : String := ⟨p.2.data.take (sizeSub p.2.data.length 1)⟩
  if (cppFind name "<inaccessible>").isSome then m
  else mapInsert m uuid name

/-- `loadSessions` step 2: the live-VM map `vboxVms` built from the
tokenized `list vms` output. -/
def buildVmMap (pairs : List (String × String)) : List (String × String) :=
  pairs.foldl vmMapStep []

/-- `loadSessions` step 3 (`VBoxInstance.cpp:745-764`): walk the session
map from iterator position `i`; a session whose `vboxid` has no entry in
`vboxVms` is deleted via `sessionDelete`, after which the code breaks if
the map emptied, else rewinds the iterator to `begin()` — and the
`for`-loop's `++it` then resumes from position 1. (`sessionDelete`
matches on the session's `uuid` field; every state reaching step 3 was
just rebuilt by step 1, which registers each session under its own
`uuid` field, so the embedding deletes by the entry's key.) -/
def step3Loop (vms : List (String × String)) (st : RegState) (i : Nat) : RegState :=
  if h : i < st.sessions.length then
    if containsKey vms (st.sessions.get ⟨i, h⟩).2.vboxid then step3Loop vms st (i + 1)
    else
      if (sessionDelete st (st.sessions.get ⟨i, h⟩).1).sessions.length = 0 then
        sessionDelete st (st.sessions.get ⟨i, h⟩).1
      else step3Loop vms (sessionDelete st (st.sessions.get ⟨i, h⟩).1) 1
  else st
termination_by (st.sessions.length, st.sessions.length - i)
decreasing_by
  · apply Prod.Lex.right
    omega
  · apply Prod.Lex.left
    have hmem : st.sessions.get ⟨i, h⟩ ∈ st.sessions := st.sessions.get_mem _ _
    have hck := containsKey_of_mem hmem
    simp only [sessionDelete, hck, if_true]
    have := length_eraseKey_of_containsKey st.sessions (st.sessions.get ⟨i, h⟩).1 hck
    omega

/-- `loadSessions` step 4 (`VBoxInstance.cpp:775-793`): walk the open
list from iterator position `i`; an open session whose uuid is no longer
registered is notified of destruction and erased, after which the code
rewinds the iterator to `begin()`, breaks if the list emptied — and the
`for`-loop's `++it` then resumes from position 1. -/
def step4Loop (st : RegState) (i : Nat) : RegState :=
  if h : i < st.openSessions.length then
    if containsKey st.sessions (st.openSessions.get ⟨i, h⟩) then step4Loop st (i + 1)
    else
      if (st.openSessions.eraseIdx i).length = 0 then
        { st with openSessions := st.openSessions.eraseIdx i }
      else step4Loop { st with openSessions := st.openSessions.eraseIdx i } 1
  else st
termination_by (st.openSessions.length, st.openSessions.length - i)
decreasing_by
  · apply Prod.Lex.right
    omega
  · apply Prod.Lex.left
    have := List.length_eraseIdx_of_lt h
    simp only [this]
    omega

/-- `VBoxInstance::loadSessions` (`VBoxInstance.cpp:661-801`): clear and
reload the session map from the persisted descriptors (step 1), run
`list vms` — a non-zero exit returns `HVE_QUERY_ERROR` at once — build
the live-VM map (step 2), prune sessions absent from it (step 3), prune
open-list entries absent from the rebuilt registry (step 4), and return
0. `vmAns` is the `list vms` exit code and `vmPairs` the tokenized
name/uuid pairs of its output. -/
def loadSessions (st : RegState) (vmAns : Int) (vmPairs : List (String × String)) :
    Int × RegState :=
  let st1 : RegState := { st with sessions := reloadSessions st.disk }
  if vmAns ≠ 0 then (HVE_QUERY_ERROR, st1)
  else
    let vboxVms := buildVmMap vmPairs
    let st3 := step3Loop vboxVms st1 0
    let st4 := step4Loop st3 0
    (0, st4)

/-! ## Readiness workflow (`VBoxInstance::waitTillReady`) -/

/-- A progress event reported to the `FiniteTaskPtr` collaborator (child
tasks created with `begin<...>` collect their own events and are not
mirrored here). -/
inductive PEvent where
  | doneEv (label : String)
  | failEv (label : String)
  | completeEv (label : String)
  deriving Repr, DecidableEq

/-- The external inputs of one `waitTillReady` run: whether sessions were
already loaded, the (ignored) `loadSessions` result, whether
`hasExtPack()` finds the extension pack, whether a UI collaborator is
present and whether it accepts the PUEL license, and the (ignored)
`installExtPack` result. -/
structure ReadyInput where
  sessionLoaded : Bool
  loadResult : Int
  hasExtPack : Bool
  uiPresent : Bool
  licenseAccepted : Bool
  installResult : Int
  deriving Repr, DecidableEq

/-- `VBoxInstance::waitTillReady` (`VBoxInstance.cpp:193-325`), for the
non-Linux build (the `#ifdef __linux__` kernel-driver repair block drops
out): report the driver phase done; load sessions once (lazily, under a
child task, result unused); when the extension pack is absent, ask the
UI (when present) for PUEL license acceptance — refusal fails the run —
and otherwise run `installExtPack` under a child task, ignoring its
result; finally report completion and return true. Returns the outcome
together with the events reported to the top-level progress task. -/
def waitTillReady (inp : ReadyInput) : Bool × List PEvent :=
  let evs := [PEvent.doneEv "VirtualBox driver in place"]
  let evs := evs ++ (if inp.sessionLoaded then [PEvent.doneEv "Sessions are loaded"] else [])
  if inp.hasExtPack then
    (true, evs ++ [PEvent.doneEv "Extension pack is installed",
                   PEvent.completeEv "Hypervisor is ready"])
  else
    if inp.uiPresent && !inp.licenseAccepted then
      (false, evs ++ [PEvent.failEv "User denied Oracle PUEL license"])
    else
      (true, evs ++ [PEvent.completeEv "Hypervisor is ready"])

/-! ## Extension pack installation (`VBoxInstance::installExtPack`) -/

/-- The external inputs of one `installExtPack` run: whether
`hasExtPack()` already finds the pack, the keystore fetch result and the
fetched configuration map, the hypervisor version triple, the download
result, the computed SHA-256 of the downloaded artifact, and the
installer exit code. -/
structure ExtPackInput where
  installed : Bool
  fetchResult : Int
  config : List (String × String)
  verMajor : Nat
  verMinor : Nat
  verBuild : Nat
  downloadResult : Int
  checksum : String
  installExit : Int
  deriving Repr, DecidableEq

/-- The observable outcome of `installExtPack`: the returned status,
whether `extpack install` was ever invoked, whether the temporary
artifact was deleted, and whether the extension pack is present
afterwards (it was present before, or the installer ran and exited
zero). -/
structure ExtPackOutcome where
  ret : Int
  installerInvoked : Bool
  artifactDeleted : Bool
  installedAfter : Bool
  deriving Repr, DecidableEq

/-- The version string `"vbox-<major>.<minor>.<build>"` built at
`VBoxInstance.cpp:894-895`. -/
def vboxVerString (inp : ExtPackInput) : String :=
  "vbox-" ++ toString inp.verMajor ++ "." ++ toString inp.verMinor ++ "."
    ++ toString inp.verBuild

/-- `VBoxInstance::installExtPack` (`VBoxInstance.cpp:854-963`):
short-circuit `HVE_ALREADY_EXISTS` when installed; propagate a failed
config fetch; `HVE_EXTERNAL_ERROR` when the `<ver>-extpack` URL or
`<ver>-extpackChecksum` key is missing; propagate a failed download;
`HVE_NOT_VALIDATED` when the computed checksum differs from the expected
one (stopping before the installer and leaving the artifact in place);
`HVE_EXTERNAL_ERROR` on a non-zero installer exit (artifact also left in
place); and only on full success delete the artifact and return
`HVE_OK`. -/
def installExtPack (inp : ExtPackInput) : ExtPackOutcome :=
  if inp.installed then
    { ret := HVE_ALREADY_EXISTS, installerInvoked := false, artifactDeleted := false,
      installedAfter := true }
  else if inp.fetchResult ≠ HVE_OK then
    { ret := inp.fetchResult, installerInvoked := false, artifactDeleted := false,
      installedAfter := false }
  else if ¬containsKey inp.config (vboxVerString inp ++ "-extpack") then
    { ret := HVE_EXTERNAL_ERROR, installerInvoked := false, artifactDeleted := false,
      installedAfter := false }
  else if ¬containsKey inp.config (vboxVerString inp ++ "-extpackChecksum") then
    { ret := HVE_EXTERNAL_ERROR, installerInvoked := false, artifactDeleted := false,
      installedAfter := false }
  else if inp.downloadResult ≠ HVE_OK then
    { ret := inp.downloadResult, installerInvoked := false, artifactDeleted := false,
      installedAfter := false }
  else if inp.checksum ≠
      ((lookupKey inp.config (vboxVerString inp ++ "-extpackChecksum")).getD "") then
    { ret := HVE_NOT_VALIDATED, installerInvoked := false, artifactDeleted := false,
      installedAfter := false }
  else if inp.installExit ≠ 0 then
    { ret := HVE_EXTERNAL_ERROR, installerInvoked := true, artifactDeleted := false,
      installedAfter := false }
  else
    { ret := HVE_OK, installerInvoked := true, artifactDeleted := true,
      installedAfter := true }

/-! ## CPU capability probing (`VBoxInstance::getCapabilities`) -/

/-- The value of one hexadecimal digit, `none` for a non-hex character. -/
def hexDigitVal (c : Char) : Option Nat :=
  if '0' ≤ c ∧ c ≤ '9' then some (c.toNat - 48)
  else if 'a' ≤ c ∧ c ≤ 'f' then some (c.toNat - 87)
  else if 'A' ≤ c ∧ c ≤ 'F' then some (c.toNat - 55)
  else none

/-- Modelled from the spec: `hex_ston<int>` (`Utilities.h`, outside
`src/`) parses a leading run of hexadecimal digits into a machine `int`;
the bit pattern is its value modulo `2 ^ 32`. -/
def hexSton (s : String) : Nat :=
  go s.data 0 % 2 ^ 32
where
  go : List Char → Nat → Nat
    | [], acc => acc
    | c :: cs, acc =>
      match hexDigitVal c with
      | some d => go cs (acc * 16 + d)
      | none => acc

/-- The capability fields derived from `list hostcpuids` rows
(`HVINFO_CAPS.cpu`); `vendor` holds the 12 decoded bytes. -/
structure CPUCaps where
  vendor : List Nat
  featuresA : Nat
  featuresB : Nat
  featuresC : Nat
  featuresD : Nat
  stepping : Nat
  model : Nat
  family : Nat
  cputype : Nat
  exmodel : Nat
  exfamily : Nat
  hasVT : Bool
  has64bit : Bool
  deriving Repr, DecidableEq

/-- The zero-initialised capability record the row loop starts from. -/
def caps0 : CPUCaps :=
  { vendor := [], featuresA := 0, featuresB := 0, featuresC := 0, featuresD := 0,
    stepping := 0, model := 0, family := 0, cputype := 0, exmodel := 0, exfamily := 0,
    hasVT := false, has64bit := false }

/-- The four little-endian bytes a register contributes to the vendor
string (`VBoxInstance.cpp:402-415`): `v & 0xFF`, `(v & 0xFF00) >> 8`,
`(v & 0xFF0000) >> 16`, `(v & 0xFF000000) >> 24`. -/
def vendorBytes (v : Nat) : List Nat :=
  [v &&& 0xFF, (v &&& 0xFF00) >>> 8, (v &&& 0xFF0000) >>> 16, (v &&& 0xFF000000) >>> 24]

/-- One `list hostcpuids` row (`VBoxInstance.cpp:397-434`), already split
into whitespace-separated fields (`trimSplit` lives in `Utilities.h`
outside `src/`; an empty row is skipped): field 0 selects the leaf;
fields 1-4 are the EAX, EBX, ECX, EDX hex values. Leaf `00000000` fills
the vendor bytes from EBX, EDX, ECX; leaf `00000001` fills the primary
feature words and the stepping/model/family/type/ex-model/ex-family bit
fields of EAX; leaf `80000001` fills the extended feature words; other
leaves are ignored. -/
def applyCpuRow (c : CPUCaps) (parts : List String) : CPUCaps :=
  if parts.length = 0 then c
  else if parts.getD 0 "" = "00000000" then
    { c with vendor :=
        vendorBytes (hexSton (parts.getD 2 "")) ++
        vendorBytes (hexSton (parts.getD 4 "")) ++
        vendorBytes (hexSton (parts.getD 3 "")) }
  else if parts.getD 0 "" = "00000001" then
    let v := hexSton (parts.getD 1 "")
    { c with
      featuresA := hexSton (parts.getD 3 ""),
      featuresB := hexSton (parts.getD 4 ""),
      stepping := v &&& 0xF,
      model := (v &&& 0xF0) >>> 4,
      family := (v &&& 0xF00) >>> 8,
      cputype := (v &&& 0x3000) >>> 12,
      exmodel := (v &&& 0xF0000) >>> 16,
      exfamily := (v &&& 0xFF00000) >>> 20 }
  else if parts.getD 0 "" = "80000001" then
    { c with
      featuresC := hexSton (parts.getD 3 ""),
      featuresD := hexSton (parts.getD 4 "") }
  else c

/-- The CPU-derivation section of `VBoxInstance::getCapabilities`
(`VBoxInstance.cpp:397-442`): fold the rows, then derive `hasVT` as
(primary ECX bit 5, Intel `vmx`) OR (extended ECX bit 1, AMD `svm`) and
`has64bit` as extended ECX bit 29 (`lm`). (The subsequent
`list systemproperties` resource-ceiling section touches none of these
fields.) -/
def getCapabilitiesCpu (rows : List (List String)) : CPUCaps :=
  let c := rows.foldl applyCpuRow caps0
  { c with
    hasVT := ((c.featuresA &&& 0x20) != 0) || ((c.featuresC &&& 0x2) != 0),
    has64bit := (c.featuresC &&& 0x20000000) != 0 }

/-! ## Guest property parsing -/

/-- One output line of `guestproperty enumerate`
(`VBoxInstance.cpp:160-182`): locate the anchors `"Name: "`,
`", value:"` and `", timestamp:"` (each by a `find` from the start of
the line); a line missing any anchor is skipped (`.ok none`); otherwise
the key is `substr(kBegin+6, kEnd-(kBegin+6))` and the value
`substr(kEnd+9, vEnd-(kEnd+9))`, with `size_t` wrap-around in the counts
and an `std::out_of_range` throw (`.error ()`) when a start position
passes the end of the line. -/
def parseGuestPropLine (line : String) : Except Unit (Option (String × String)) :=
  match cppFind line "Name: " with
  | none => .ok none
  | some kBegin0 =>
    match cppFind line ", value:" with
    | none => .ok none
    | some kEnd =>
      match cppFind line ", timestamp:" with
      | none => .ok none
      | some vEnd =>
        match cppSubstr line (kBegin0 + 6) (sizeSub kEnd (kBegin0 + 6)) with
        | none => .error ()
        | some vKey =>
          match cppSubstr line (kEnd + 9) (sizeSub vEnd (kEnd + 9)) with
          | none => .error ()
          | some vValue => .ok (some (vKey, vValue))

/-- The line loop of `getAllProperties`: accumulate `ans[vKey] = vValue`
over the lines, skipping invalid ones; an `std::out_of_range` escape
aborts the whole call. -/
def getAllPropsGo (lines : List String) (acc : List (String × String)) :
    Except Unit (List (String × String)) :=
  match lines with
  | [] => .ok acc
  | l :: ls =>
    match parseGuestPropLine l with
    | .error e => .error e
    | .ok none => getAllPropsGo ls acc
    | .ok (some (k, v)) => getAllPropsGo ls (mapInsert acc k v)

/-- `VBoxInstance::getAllProperties` (`VBoxInstance.cpp:151-188`): when
the `guestproperty enumerate` exit code `ans` is zero, parse every
output line into the result map; otherwise return the empty map. -/
def getAllProperties (ans : Int) (lines : List String) :
    Except Unit (List (String × String)) :=
  if ans = 0 then getAllPropsGo lines [] else .ok []

/-- Do the three anchors of a guest-property line occur in order (first
occurrences at strictly increasing positions)? -/
def anchorsInOrder (line : String) : Bool :=
  match cppFind line "Name: ", cppFind line ", value:", cppFind line ", timestamp:" with
  | some i, some j, some k => decide (i < j) && decide (j < k)
  | _, _, _ => false

/-- `VBoxInstance::getProperty` (`VBoxInstance.cpp:330-353`): empty
string when the `guestproperty get` exit code is non-zero or no output
line came back; otherwise, when the first line's `substr(0,6)` equals
`"Value:"`, return `substr(7)` — which throws (`none`) when the line is
exactly `"Value:"` — and the empty string when it does not. -/
def getProperty (ans : Int) (lines : List String) : Option String :=
  if ans ≠ 0 then some ""
  else
    match lines with
    | [] => some ""
    | l :: _ =>
      match cppSubstr l 0 6 with
      | none => none
      | some s6 => if s6 = "Value:" then cppSubstrFrom l 7 else some ""

/-! ## Registry operation sequences -/

/-- One registry operation of the engine's public surface. -/
inductive RegOp where
  | alloc (guid : String)
  | checkout (uuid : String) (fresh : VSession)
  | close (uuid : String)
  | del (uuid : String)
  | reload (vmAns : Int) (vmPairs : List (String × String))
  deriving Repr

/-- Apply one registry operation. -/
def applyOp (st : RegState) : RegOp → RegState
  | .alloc g => allocateSession st g
  | .checkout u f => sessionOpen st u f
  | .close u => sessionClose st u
  | .del u => sessionDelete st u
  | .reload a p => (loadSessions st a p).2

/-- Apply a sequence of registry operations, left to right. -/
def applyOps (st : RegState) (ops : List RegOp) : RegState :=
  ops.foldl applyOp st

/-- Balanced-checkout discipline for one operation: `close` is invoked
only on a session that is registered with a positive open count. -/
def closeSafe (st : RegState) : RegOp → Bool
  | .close u =>
    match lookupKey st.sessions u with
    | some s => decide (1 ≤ s.instances)
    | none => false
  | _ => true

/-- Balanced-checkout discipline along a whole operation sequence. -/
def safeOps : RegState → List RegOp → Bool
  | _, [] => true
  | st, op :: ops => closeSafe st op && safeOps (applyOp st op) ops

/-- No registered session has a negative open reference count. -/
def nonnegCounts (st : RegState) : Bool :=
  st.sessions.all (fun p => decide (0 ≤ p.2.instances))

/-- The representation invariant of a `std::map` embedding: entries are
strictly sorted by key. -/
def mapSorted {α : Type} (m : List (String × α)) : Prop :=
  List.Pairwise (fun p q => strLt p.1 q.1 = true) m

/-- The session object `open()` hands back: the registered session with
its count bumped, or a freshly created one checked out once. -/
def openedSession (st : RegState) (uuid : String) (fresh : VSession) : VSession :=
  match lookupKey st.sessions uuid with
  | some s => { s with instances := s.instances + 1 }
  | none => { fresh with uuid := uuid, instances := 1 }

/-- The progress events `waitTillReady` has reported before it reaches
the extension-pack phase. -/
def readyBaseEvents (inp : ReadyInput) : List PEvent :=
  [PEvent.doneEv "VirtualBox driver in place"] ++
    (if inp.sessionLoaded then [PEvent.doneEv "Sessions are loaded"] else [])

/-! ## Concrete claim inputs -/

/-- A persisted descriptor whose VM `x` has vanished from the hypervisor. -/
def descA : Descriptor := { name := some "sess-a", uuid := some "a", vboxid := "x", state := 1 }

/-- A second persisted descriptor whose VM `y` has also vanished. -/
def descB : Descriptor := { name := some "sess-b", uuid := some "b", vboxid := "y", state := 1 }

/-- Initial state for the reconciliation run over `descA` and `descB`. -/
def twoOrphanInit : RegState :=
  { sessions := [], openSessions := [], disk := [("a", descA), ("b", descB)] }

/-- The state `loadSessions` actually leaves behind on `twoOrphanInit`
with an empty live-VM listing: orphan `b` survives the pass. -/
def twoOrphanFinal : RegState :=
  { sessions := [("b", { uuid := "b", vboxid := "y", state := 1, instances := 0 })],
    openSessions := [], disk := [("b", descB)] }

/-- Initial state whose open list holds two sessions (`a`, `b`) that no
persisted descriptor backs any more. -/
def twoStaleOpenInit : RegState :=
  { sessions := [("z", { uuid := "z", vboxid := "w", state := 1, instances := 0 })],
    openSessions := ["a", "b"], disk := [] }

/-- A session record with no open references, not in the Missing state. -/
def idleSession : VSession := { uuid := "u", vboxid := "", state := 1, instances := 0 }

/-- Registry holding just `idleSession`. -/
def idleReg : RegState :=
  { sessions := [("u", idleSession)], openSessions := [], disk := [] }

/-- The empty registry. -/
def emptyReg : RegState := { sessions := [], openSessions := [], disk := [] }

/-- A fresh session template in the `SS_MISSING` lifecycle state. -/
def freshMissing : VSession := { uuid := "", vboxid := "", state := SS_MISSING, instances := 0 }

/-- A fresh session template outside the `SS_MISSING` lifecycle state. -/
def freshLive : VSession := { uuid := "", vboxid := "", state := 2, instances := 0 }

/-- A `waitTillReady` run in which the extension pack is absent, the user
accepts the license, and `installExtPack` fails checksum validation. -/
def readyInstallFails : ReadyInput :=
  { sessionLoaded := true, loadResult := 0, hasExtPack := false,
    uiPresent := true, licenseAccepted := true, installResult := HVE_NOT_VALIDATED }

/-- A registry holding one session with five concurrent open handles. -/
def busyReg : RegState :=
  { sessions := [("w", { uuid := "w", vboxid := "", state := 2, instances := 5 })],
    openSessions := ["w"], disk := [] }

/-- A `waitTillReady` run in which the extension pack is absent and the
user refuses the PUEL license. -/
def readyLicenseDenied : ReadyInput :=
  { sessionLoaded := true, loadResult := 0, hasExtPack := false,
    uiPresent := true, licenseAccepted := false, installResult := 0 }

/-- An `installExtPack` run whose downloaded artifact hashes to a value
other than the expected checksum. -/
def extPackMismatch : ExtPackInput :=
  { installed := false, fetchResult := 0,
    config := [("vbox-4.3.12-extpack", "http://cernvm.cern.ch/vbox.extpack"),
               ("vbox-4.3.12-extpackChecksum", "0deadbeef")],
    verMajor := 4, verMinor := 3, verBuild := 12,
    downloadResult := 0, checksum := "0badc0de", installExit := 0 }

/-- A guest-property line whose three anchors all occur, but out of
order: `", value:"` first, `", timestamp:"` second, `"Name: "` last. -/
def outOfOrderLine : String := ", value: bar, timestamp: 1, Name: foo"

/-! ## Supporting lemmas -/

theorem sessionDelete_sessions_sub {st : RegState} {u : String} {p : String × VSession}
    (h : p ∈ (sessionDelete st u).sessions) : p ∈ st.sessions := by
  unfold sessionDelete at h
  by_cases hc : containsKey st.sessions u
  · rw [if_pos hc] at h
    exact mem_eraseKey h
  · rwa [if_neg hc] at h

theorem step4Loop_sessions (st : RegState) (i : Nat) :
    (step4Loop st i).sessions = st.sessions := by
  induction st, i using step4Loop.induct with
  | case1 st i h hck ih =>
    rw [step4Loop, dif_pos h, if_pos hck]
    exact ih
  | case2 st i h hck hlen =>
    rw [step4Loop, dif_pos h, if_neg hck, if_pos hlen]
  | case3 st i h hck hlen ih =>
    rw [step4Loop, dif_pos h, if_neg hck, if_neg hlen]
    exact ih
  | case4 st i h =>
    rw [step4Loop, dif_neg h]

theorem step3Loop_sessions_sub (vms : List (String × String)) (st : RegState) (i : Nat) :
    ∀ p ∈ (step3Loop vms st i).sessions, p ∈ st.sessions := by
  induction st, i using step3Loop.induct vms with
  | case1 st i h hck ih =>
    rw [step3Loop, dif_pos h, if_pos hck]
    exact ih
  | case2 st i h hck hlen =>
    rw [step3Loop, dif_pos h, if_neg hck, if_pos hlen]
    intro p hp
    exact sessionDelete_sessions_sub hp
  | case3 st i h hck hlen ih =>
    rw [step3Loop, dif_pos h, if_neg hck, if_neg hlen]
    intro p hp
    exact sessionDelete_sessions_sub (ih p hp)
  | case4 st i h =>
    rw [step3Loop, dif_neg h]
    intro p hp
    exact hp

theorem reloadStep_mem {m : List (String × VSession)} {d : Descriptor} {p : String × VSession}
    (h : p ∈ reloadStep m d) : p.2.instances = 0 ∨ p ∈ m := by
  unfold reloadStep at h
  cases hn : d.name with
  | none => rw [hn] at h; exact Or.inr h
  | some s =>
    rw [hn] at h
    cases hu : d.uuid with
    | none => rw [hu] at h; exact Or.inr h
    | some u =>
      rw [hu] at h
      rcases mem_mapInsert h with h | h
      · left; rw [h]; rfl
      · exact Or.inr h

theorem reloadSessions_mem {disk : List (String × Descriptor)} {p : String × VSession}
    (h : p ∈ reloadSessions disk) : p.2.instances = 0 := by
  suffices H : ∀ (l : List (String × Descriptor)) (acc : List (String × VSession)),
      (∀ q ∈ acc, q.2.instances = 0) →
      ∀ q ∈ l.foldl (fun m p => reloadStep m p.2) acc, q.2.instances = 0 by
    exact H disk [] (by intro q hq; simp at hq) p h
  intro l
  induction l with
  | nil => intro acc hacc q hq; exact hacc q hq
  | cons d rest ih =>
    intro acc hacc q hq
    refine ih (reloadStep acc d.2) ?_ q hq
    intro r hr
    rcases reloadStep_mem hr with h0 | h0
    · exact h0
    · exact hacc r h0

theorem loadSessions_sessions_mem (st : RegState) (a : Int) (ps : List (String × String)) :
    ∀ q ∈ ((loadSessions st a ps).2).sessions, q ∈ reloadSessions st.disk := by
  unfold loadSessions
  by_cases ha : a ≠ 0
  · rw [if_pos ha]
    intro q hq
    exact hq
  · rw [if_neg ha]
    intro q hq
    simp only [step4Loop_sessions] at hq
    exact step3Loop_sessions_sub _ _ _ q hq

theorem mapSorted_nodupKeys {α : Type} {m : List (String × α)}
    (h : mapSorted m) : (m.map Prod.fst).Nodup := by
  unfold mapSorted at h
  rw [List.Nodup, List.pairwise_map]
  exact h.imp (fun hlt => strLt_ne hlt)

theorem mapInsert_sorted {α : Type} {m : List (String × α)} (k : String) (v : α)
    (h : mapSorted m) : mapSorted (mapInsert m k v) := by
  unfold mapSorted at h ⊢
  induction m with
  | nil => simp [mapInsert]
  | cons q rest ih =>
    rw [List.pairwise_cons] at h
    simp only [mapInsert]
    by_cases h1 : strLt k q.1 = true
    · rw [if_pos h1, List.pairwise_cons]
      refine ⟨?_, List.pairwise_cons.mpr h⟩
      intro p hp
      rcases List.mem_cons.mp hp with hp | hp
      · rw [hp]
        exact h1
      · exact strLt_trans h1 (h.1 p hp)
    · by_cases h2 : k = q.1
      · rw [if_neg h1, if_pos h2, List.pairwise_cons]
        refine ⟨?_, h.2⟩
        intro p hp
        rw [h2]
        exact h.1 p hp
      · rw [if_neg h1, if_neg h2, List.pairwise_cons]
        have hqk : strLt q.1 k = true := by
          by_cases h3 : strLt q.1 k = true
          · exact h3
          · exact absurd (strLt_total (by simpa using h3) (by simpa using h1)) (fun he => h2 he.symm)
        refine ⟨?_, ih h.2⟩
        intro p hp
        rcases mem_mapInsert hp with hp | hp
        · rw [hp]
          exact hqk
        · exact h.1 p hp

theorem containsKey_eraseKey_of_nodup {α : Type} {m : List (String × α)} {k : String}
    (h : (m.map Prod.fst).Nodup) : containsKey (eraseKey m k) k = false := by
  induction m with
  | nil => simp [eraseKey, containsKey]
  | cons q rest ih =>
    simp only [List.map_cons, List.nodup_cons] at h
    simp only [eraseKey]
    by_cases hq : q.1 = k
    · rw [if_pos hq]
      rw [containsKey]
      rw [List.any_eq_false]
      intro p hp
      simp only [decide_eq_true_eq]
      intro hpk
      refine absurd ?_ h.1
      rw [hq, ← hpk]
      exact List.mem_map_of_mem Prod.fst hp
    · rw [if_neg hq]
      simp only [containsKey, List.any_cons]
      rw [Bool.or_eq_false_iff]
      constructor
      · simpa using hq
      · exact ih h.2

theorem keys_updateKey {α : Type} (m : List (String × α)) (k : String) (v : α) :
    (updateKey m k v).map Prod.fst = m.map Prod.fst := by
  induction m with
  | nil => simp [updateKey]
  | cons q rest ih =>
    simp only [updateKey]
    by_cases hq : q.1 = k
    · rw [if_pos hq]
      simp [hq]
    · rw [if_neg hq]
      simp [ih]

theorem and_shl255_shr (v k : Nat) : (v &&& (255 <<< k)) >>> k = v / 2 ^ k % 256 := by
  have h1 : (v &&& (255 <<< k)) >>> k = (v >>> k) &&& 255 := by
    apply Nat.eq_of_testBit_eq
    intro i
    simp only [Nat.testBit_shiftRight, Nat.testBit_and, Nat.testBit_shiftLeft]
    have h2 : k + i - k = i := by omega
    have h3 : k ≤ k + i := Nat.le_add_right k i
    simp [h2, h3]
  rw [h1, Nat.shiftRight_eq_div_pow]
  have h2 := Nat.and_pow_two_sub_one_eq_mod (v / 2 ^ k) 8
  norm_num at h2
  exact h2

theorem and255_mod (v : Nat) : v &&& 255 = v % 256 := by
  have h := Nat.and_pow_two_sub_one_eq_mod v 8
  norm_num at h
  exact h

theorem and_two_pow_bne (v i : Nat) : (v &&& 2 ^ i != 0) = v.testBit i := by
  rw [Nat.and_two_pow]
  cases h : v.testBit i
  · simp
  · simp only [Bool.toNat_true, one_mul, bne_iff_ne, ne_eq]
    simp [(Nat.two_pow_pos i).ne']

/-- Claim C8: for every set of CPU-identification rows (one row per leaf,
arbitrary hex fields), `getCapabilities` derives from the leaf-`00000000`
row a 12-byte vendor string whose bytes come from the second, fourth and
third returned hex fields (EBX, EDX, ECX) in that order, each decoded
little-endian byte-wise into four characters; hardware-virtualization
support as (leaf-`00000001` ECX bit 5) OR (leaf-`80000001` ECX bit 1);
and 64-bit long-mode support as leaf-`80000001` ECX bit 29 — matching
manual bit extraction (`/`, `%`, `Nat.testBit`) from those exact rows. -/
theorem getCapabilitiesCpu_derivation (a0 b0 c0 d0 a1 b1 c1 d1 a2 b2 c2 d2 : String) :
    (getCapabilitiesCpu [["00000000", a0, b0, c0, d0], ["00000001", a1, b1, c1, d1],
        ["80000001", a2, b2, c2, d2]]).vendor =
      [hexSton b0 % 256, hexSton b0 / 2 ^ 8 % 256, hexSton b0 / 2 ^ 16 % 256,
        hexSton b0 / 2 ^ 24 % 256,
       hexSton d0 % 256, hexSton d0 / 2 ^ 8 % 256, hexSton d0 / 2 ^ 16 % 256,
        hexSton d0 / 2 ^ 24 % 256,
       hexSton c0 % 256, hexSton c0 / 2 ^ 8 % 256, hexSton c0 / 2 ^ 16 % 256,
        hexSton c0 / 2 ^ 24 % 256] ∧
    (getCapabilitiesCpu [["00000000", a0, b0, c0, d0], ["00000001", a1, b1, c1, d1],
        ["80000001", a2, b2, c2, d2]]).hasVT =
      ((hexSton c1).testBit 5 || (hexSton c2).testBit 1) ∧
    (getCapabilitiesCpu [["00000000", a0, b0, c0, d0], ["00000001", a1, b1, c1, d1],
        ["80000001", a2, b2, c2, d2]]).has64bit = (hexSton c2).testBit 29 := by
  have hb0 : ∀ v : Nat, (v &&& 65280) >>> 8 = v / 256 % 256 := by
    intro v
    have h := and_shl255_shr v 8
    norm_num at h
    exact h
  have hb1 : ∀ v : Nat, (v &&& 16711680) >>> 16 = v / 65536 % 256 := by
    intro v
    have h := and_shl255_shr v 16
    norm_num at h
    exact h
  have hb2 : ∀ v : Nat, (v &&& 4278190080) >>> 24 = v / 16777216 % 256 := by
    intro v
    have h := and_shl255_shr v 24
    norm_num at h
    exact h
  have h5 : ∀ v : Nat, (v &&& 32 != 0) = v.testBit 5 := by
    intro v
    have h := and_two_pow_bne v 5
    norm_num at h
    exact h
  have h1' : ∀ v : Nat, (v &&& 2 != 0) = v.testBit 1 := by
    intro v
    have h := and_two_pow_bne v 1
    norm_num at h
    exact h
  have h29 : ∀ v : Nat, (v &&& 536870912 != 0) = v.testBit 29 := by
    intro v
    have h := and_two_pow_bne v 29
    norm_num at h
    exact h
  have e1 : ("00000001" = "00000000") = False := eq_false (by decide)
  have e2 : ("80000001" = "00000000") = False := eq_false (by decide)
  have e3 : ("80000001" = "00000001") = False := eq_false (by decide)
  refine ⟨?_, ?_, ?_⟩ <;>
    simp only [getCapabilitiesCpu, List.foldl, applyCpuRow, caps0, vendorBytes, e1, e2, e3,
      eq_self_iff_true, if_true, if_false, List.length_cons, List.getD, List.get?,
      Option.getD_some] <;>
    norm_num [hb0, hb1, hb2, h5, h1', h29, and255_mod]

theorem sizeSub_of_le {a b : Nat} (h : b ≤ a) (ha : a < 2 ^ 64) : sizeSub a b = a - b := by
  unfold sizeSub
  omega

/-- Claim C9 counterexample: the claim says a line is accepted *only if*
its anchors occur in order, but `getAllProperties` accepts (and maps)
the line `", value: bar, timestamp: 1, Name: foo"`, whose anchors all
occur yet out of order — the `find` calls check presence, never
order. -/
theorem parseGuestPropLine_out_of_order :
    parseGuestPropLine outOfOrderLine = .ok (some ("foo", "bar")) ∧
    anchorsInOrder outOfOrderLine = false := by
  constructor
  · rfl
  · decide

/-- Claim C9 (amended): `getAllProperties` accepts an output line iff it
contains all three anchors `"Name: "`, `", value:"`, `", timestamp:"`
(at their first occurrences, in any order — order is not checked). When
the anchors occur in order, the key is the substring between the end of
the `"Name: "` anchor and the start of the `", value:"` anchor (at
`kEnd`), and the value starts at `kEnd + 9`: it runs up to the start of
the `", timestamp:"` anchor when that anchor starts at or after
`kEnd + 9`, but when it starts earlier the `size_t` count wraps and
`substr` clamps, so the value is the whole remainder of the line from
`kEnd + 9`; and when the line ends before `kEnd + 9` the call throws
`std::out_of_range`. A line missing any one anchor is skipped silently
without failing the whole call, and
`"Name: foo, value: bar, timestamp: 123"` parses to `foo -> bar`. -/
theorem getAllProperties_anchor_semantics (line : String) :
    ((cppFind line "Name: " = none ∨ cppFind line ", value:" = none ∨
        cppFind line ", timestamp:" = none) → parseGuestPropLine line = .ok none) ∧
    (∀ k v, parseGuestPropLine line = .ok (some (k, v)) →
        (cppFind line "Name: ").isSome ∧ (cppFind line ", value:").isSome ∧
          (cppFind line ", timestamp:").isSome) ∧
    (∀ i j k, cppFind line "Name: " = some i → cppFind line ", value:" = some j →
        cppFind line ", timestamp:" = some k → i + 6 ≤ j → j + 9 ≤ k →
        line.data.length < 2 ^ 64 →
        parseGuestPropLine line =
          .ok (some (⟨(line.data.take j).drop (i + 6)⟩, ⟨(line.data.take k).drop (j + 9)⟩))) ∧
    (∀ i j k, cppFind line "Name: " = some i → cppFind line ", value:" = some j →
        cppFind line ", timestamp:" = some k → i + 6 ≤ j → k < j + 9 →
        j + 9 ≤ line.data.length → line.data.length < 2 ^ 64 →
        parseGuestPropLine line =
          .ok (some (⟨(line.data.take j).drop (i + 6)⟩, ⟨line.data.drop (j + 9)⟩))) ∧
    (∀ i j k, cppFind line "Name: " = some i → cppFind line ", value:" = some j →
        cppFind line ", timestamp:" = some k → line.data.length < j + 9 →
        parseGuestPropLine line = .error ()) ∧
    (parseGuestPropLine line = .ok none →
        ∀ ls acc, getAllPropsGo (line :: ls) acc = getAllPropsGo ls acc) ∧
    getAllProperties 0 ["Name: foo, value: bar, timestamp: 123"] = .ok [("foo", "bar")] := by
  refine ⟨?_, ?_, ?_, ?_, ?_, ?_, ?_⟩
  · intro h
    rcases h with h | h | h
    · simp [parseGuestPropLine, h]
    · cases hf : cppFind line "Name: " with
      | none => simp [parseGuestPropLine, hf]
      | some i => simp [parseGuestPropLine, hf, h]
    · cases hf : cppFind line "Name: " with
      | none => simp [parseGuestPropLine, hf]
      | some i =>
        cases hg : cppFind line ", value:" with
        | none => simp [parseGuestPropLine, hf, hg]
        | some j => simp [parseGuestPropLine, hf, hg, h]
  · intro k v hkv
    cases hf : cppFind line "Name: " with
    | none => simp [parseGuestPropLine, hf] at hkv
    | some i =>
      cases hg : cppFind line ", value:" with
      | none => simp [parseGuestPropLine, hf, hg] at hkv
      | some j =>
        cases hh : cppFind line ", timestamp:" with
        | none => simp [parseGuestPropLine, hf, hg, hh] at hkv
        | some k' => simp [hf, hg, hh]
  · intro i j k hf1 hf2 hf3 hij hjk hlen
    have hjfit : j + 8 ≤ line.data.length := by
      have h := cppFind_fits hf2
      norm_num at h
      exact h
    have hkfit : k + 12 ≤ line.data.length := by
      have h := cppFind_fits hf3
      norm_num at h
      exact h
    unfold parseGuestPropLine
    rw [hf1, hf2, hf3]
    have hpos1 : i + 6 ≤ line.data.length := le_trans hij (by omega)
    have hpos2 : j + 9 ≤ line.data.length := le_trans hjk (by omega)
    simp only [cppSubstr]
    rw [if_pos hpos1,
      sizeSub_of_le hij (lt_of_le_of_lt (by omega : j ≤ line.data.length) hlen)]
    rw [if_pos hpos2,
      sizeSub_of_le hjk (lt_of_le_of_lt (by omega : k ≤ line.data.length) hlen)]
    have harg1 : (i + 6) + (j - (i + 6)) = j := by omega
    have harg2 : (j + 9) + (k - (j + 9)) = k := by omega
    have hkey : (line.data.drop (i + 6)).take (j - (i + 6)) = (line.data.take j).drop (i + 6) := by
      rw [List.take_drop, harg1]
    have hval : (line.data.drop (j + 9)).take (k - (j + 9)) = (line.data.take k).drop (j + 9) := by
      rw [List.take_drop, harg2]
    rw [hkey, hval]
  · intro i j k hf1 hf2 hf3 hij hkj hpos2 hlen
    unfold parseGuestPropLine
    rw [hf1, hf2, hf3]
    have hpos1 : i + 6 ≤ line.data.length := le_trans hij (by omega)
    simp only [cppSubstr]
    rw [if_pos hpos1,
      sizeSub_of_le hij (lt_of_le_of_lt (by omega : j ≤ line.data.length) hlen)]
    rw [if_pos hpos2]
    have htake : (line.data.drop (j + 9)).take (sizeSub k (j + 9)) = line.data.drop (j + 9) := by
      apply List.take_of_length_le
      rw [List.length_drop]
      unfold sizeSub
      omega
    rw [htake]
    have harg1 : (i + 6) + (j - (i + 6)) = j := by omega
    have hkey : (line.data.drop (i + 6)).take (j - (i + 6)) = (line.data.take j).drop (i + 6) := by
      rw [List.take_drop, harg1]
    rw [hkey]
  · intro i j k hf1 hf2 hf3 hlen2
    unfold parseGuestPropLine
    rw [hf1, hf2, hf3]
    have hpos1 : i + 6 ≤ line.data.length := by
      have h := cppFind_fits hf1
      norm_num at h
      exact h
    simp only [cppSubstr]
    rw [if_pos hpos1, if_neg (by omega : ¬(j + 9 ≤ line.data.length))]
  · intro h ls acc
    simp [getAllPropsGo, h]
  · rfl

/-- Claim C10 counterexample: the claim says `getProperty` always returns
a plain string, but on a first output line that is exactly `"Value:"`
the code takes the `substr(7)` branch of a 6-character string, which
throws `std::out_of_range` instead of returning. -/
theorem getProperty_throws_on_bare_value : getProperty 0 ["Value:"] = none := by
  decide

theorem getProperty_cons (l : String) (ls : List String) :
    getProperty 0 (l :: ls) =
      (if (⟨l.data.take 6⟩ : String) = "Value:" then cppSubstrFrom l 7 else some "") := by
  rw [getProperty]
  rw [if_neg (by simp : ¬((0 : Int) ≠ 0))]
  show (match cppSubstr l 0 6 with
    | none => none
    | some s6 => if s6 = "Value:" then cppSubstrFrom l 7 else some "") = _
  rw [show cppSubstr l 0 6 = some ⟨l.data.take 6⟩ by simp [cppSubstr]]

/-- Claim C10 (amended): `getProperty` returns the empty string whenever
the query exits non-zero, produces no output lines, or the first line
does not begin with `"Value:"`; when the first line begins with
`"Value:"` and has at least 7 characters it returns the line from index
7 onward; but when the first line is exactly `"Value:"` the `substr(7)`
call throws `std::out_of_range`, so the call errors instead of
returning a string. -/
theorem getProperty_total_behavior (ans : Int) (lines : List String) :
    (ans ≠ 0 → getProperty ans lines = some "") ∧
    (lines = [] → getProperty ans lines = some "") ∧
    (∀ l ls, ans = 0 → lines = l :: ls → l.data.take 6 ≠ "Value:".data →
        getProperty ans lines = some "") ∧
    (∀ l ls, ans = 0 → lines = l :: ls → l.data.take 6 = "Value:".data →
        7 ≤ l.data.length → getProperty ans lines = some ⟨l.data.drop 7⟩) ∧
    (∀ ls, ans = 0 → lines = "Value:" :: ls → getProperty ans lines = none) := by
  refine ⟨?_, ?_, ?_, ?_, ?_⟩
  · intro h
    simp [getProperty, h]
  · intro h
    subst h
    by_cases h : ans ≠ 0 <;> simp [getProperty, h]
  · intro l ls hans hl hne
    subst hl
    subst hans
    rw [getProperty_cons]
    rw [if_neg]
    intro hcontra
    exact hne (by simpa [String.ext_iff] using hcontra)
  · intro l ls hans hl heq hlen
    subst hl
    subst hans
    rw [getProperty_cons]
    rw [if_pos (show (⟨l.data.take 6⟩ : String) = "Value:" by
      simpa [String.ext_iff] using heq)]
    simp only [cppSubstrFrom]
    rw [if_pos (by omega)]
  · intro ls hans hl
    subst hl
    subst hans
    rfl

theorem sessionClose_of_lookup {st : RegState} {uuid : String} {s : VSession}
    (h : lookupKey st.sessions uuid = some s) :
    sessionClose st uuid =
      if 0 < s.instances - 1 then
        { st with
          sessions := updateKey st.sessions uuid { s with instances := s.instances - 1 } }
      else if s.state = SS_MISSING then
        sessionDelete
          { st with
            sessions := updateKey st.sessions uuid { s with instances := s.instances - 1 },
            openSessions := st.openSessions.erase uuid } uuid
      else
        { st with
          sessions := updateKey st.sessions uuid { s with instances := s.instances - 1 },
          openSessions := st.openSessions.erase uuid } := by
  rw [sessionClose, h]

theorem sessionOpen_sessions (st : RegState) (uuid : String) (fresh : VSession) :
    (sessionOpen st uuid fresh).sessions =
      mapInsert st.sessions uuid (openedSession st uuid fresh) := by
  rw [sessionOpen, openedSession]

theorem sessionOpen_disk (st : RegState) (uuid : String) (fresh : VSession) :
    (sessionOpen st uuid fresh).disk = st.disk := by
  rw [sessionOpen]

theorem openedSession_instances (st : RegState) (uuid : String) (fresh : VSession)
    (h : lookupKey st.sessions uuid = none ∨
      ∃ s, lookupKey st.sessions uuid = some s ∧ s.instances = 0) :
    (openedSession st uuid fresh).instances = 1 := by
  unfold openedSession
  rcases h with h | ⟨s, hs1, hs2⟩
  · rw [h]
  · rw [hs1]
    simp [hs2]

/-- Claim C2: `loadSessions` distinguishes hypervisor-query failure from
completion: whenever the `list vms` exit code is non-zero it returns
`HVE_QUERY_ERROR` (≠ 0, the completion status) and performs none of the
step-3/step-4 removals — the open list and the disk store are exactly as
before — while the step-1 effect (clearing the in-memory map and
reloading it from the persisted descriptors) has already taken place. -/
theorem loadSessions_query_error (st : RegState) (vmAns : Int)
    (vmPairs : List (String × String)) (h : vmAns ≠ 0) :
    loadSessions st vmAns vmPairs =
      (HVE_QUERY_ERROR,
        { sessions := reloadSessions st.disk, openSessions := st.openSessions,
          disk := st.disk }) ∧
    HVE_QUERY_ERROR ≠ 0 := by
  constructor
  · rw [loadSessions, if_pos h]
  · decide

/-- Claim C2 witness. -/
theorem loadSessions_query_error_witness :
    loadSessions { sessions := [("q", idleSession)], openSessions := ["q"], disk := [] } 1 [] =
      (HVE_QUERY_ERROR, { sessions := [], openSessions := ["q"], disk := [] }) ∧
    HVE_QUERY_ERROR ≠ 0 :=
  loadSessions_query_error
    { sessions := [("q", idleSession)], openSessions := ["q"], disk := [] } 1 [] (by decide)

/-- Claim C1 (code bug): on a registry reloaded from two descriptors `a`
and `b` whose VMs both vanished from the hypervisor (empty `list vms`),
`loadSessions` returns the completed status `0` yet leaves session `b`
registered, although its externalId `y` has no match in the live-VM map
built during the pass: after `sessionDelete` for `a` the iterator is
rewound to `begin()` and the `for` loop's `++it` skips one entry. -/
theorem loadSessions_orphan_remains :
    loadSessions twoOrphanInit 0 [] = (0, twoOrphanFinal) ∧
    lookupKey twoOrphanFinal.sessions "b" =
      some { uuid := "b", vboxid := "y", state := 1, instances := 0 } ∧
    containsKey (buildVmMap []) "y" = false := by
  refine ⟨?_, by decide, by decide⟩
  have h3 : step3Loop []
      { sessions := [("a", { uuid := "a", vboxid := "x", state := 1, instances := 0 }),
                     ("b", { uuid := "b", vboxid := "y", state := 1, instances := 0 })],
        openSessions := [], disk := [("a", descA), ("b", descB)] } 0 = twoOrphanFinal := by
    rw [step3Loop]
    norm_num [containsKey, sessionDelete, eraseKey, descA, descB, twoOrphanFinal]
    rw [step3Loop]
    norm_num [containsKey, twoOrphanFinal]
  have h4 : step4Loop twoOrphanFinal 0 = twoOrphanFinal := by
    rw [step4Loop]
    norm_num [twoOrphanFinal]
  rw [loadSessions, if_neg (by decide : ¬((0 : Int) ≠ 0))]
  simp only [show buildVmMap [] = ([] : List (String × String)) from rfl,
    show reloadSessions [("a", descA), ("b", descB)] =
      [("a", { uuid := "a", vboxid := "x", state := 1, instances := 0 }),
       ("b", { uuid := "b", vboxid := "y", state := 1, instances := 0 })] from by decide,
    show twoOrphanInit.openSessions = ([] : List String) from by decide,
    show twoOrphanInit.disk = [("a", descA), ("b", descB)] from by decide,
    h3, h4]

/-- Claim C3 (code bug): after a completed `loadSessions` pass over a
state whose open list holds two sessions (`a`, `b`) that the reloaded
registry no longer contains, the open list still holds `b` although `b`
is absent from the registry — step 4 erases `a`, rewinds the iterator to
`begin()`, and the `for` loop's `++it` skips `b`. -/
theorem loadSessions_open_list_stale :
    loadSessions twoStaleOpenInit 0 [] =
      (0, { sessions := [], openSessions := ["b"], disk := [] }) ∧
    (["b"] : List String).contains "b" = true ∧
    containsKey ([] : List (String × VSession)) "b" = false := by
  refine ⟨?_, by decide, by decide⟩
  have h3 : step3Loop []
      { sessions := ([] : List (String × VSession)),
        openSessions := ["a", "b"],
        disk := ([] : List (String × Descriptor)) } 0 =
      { sessions := ([] : List (String × VSession)),
        openSessions := ["a", "b"],
        disk := ([] : List (String × Descriptor)) } := by
    rw [step3Loop]
    norm_num
  have h4 : step4Loop
      { sessions := ([] : List (String × VSession)),
        openSessions := ["a", "b"],
        disk := ([] : List (String × Descriptor)) } 0 =
      { sessions := ([] : List (String × VSession)),
        openSessions := ["b"],
        disk := ([] : List (String × Descriptor)) } := by
    rw [step4Loop]
    norm_num [containsKey]
    rw [step4Loop]
    norm_num
  rw [loadSessions, if_neg (by decide : ¬((0 : Int) ≠ 0))]
  simp only [show buildVmMap [] = ([] : List (String × String)) from rfl,
    show reloadSessions ([] : List (String × Descriptor)) =
      ([] : List (String × VSession)) from rfl,
    show twoStaleOpenInit.openSessions = (["a", "b"] : List String) from by decide,
    show twoStaleOpenInit.disk = ([] : List (String × Descriptor)) from by decide,
    h3, h4]

/-- Claim C4: `close(session)` decrements the session's openRefCount and
only when it reaches zero tears the session down (removing it from the
open list; above zero only the counter changes); if at that point the
session's lifecycleState is `SS_MISSING` it cascades into full deletion.
Consequently `open()` immediately followed by `close()` — on a session
that is fresh or has no other holders — deletes the session (registry
and persisted descriptor) if and only if its lifecycleState is
`SS_MISSING`, and otherwise leaves it registered with openRefCount zero.
`hs`/`hd` are the `std::map` representation invariants of the
registry and the descriptor store. -/
theorem sessionClose_roundtrip (st : RegState) (uuid : String) (fresh : VSession)
    (hs : mapSorted st.sessions) (hd : (st.disk.map Prod.fst).Nodup)
    (h : lookupKey st.sessions uuid = none ∨
      ∃ s, lookupKey st.sessions uuid = some s ∧ s.instances = 0) :
    (∀ (st' : RegState) (s : VSession), lookupKey st'.sessions uuid = some s →
      1 < s.instances →
      sessionClose st' uuid =
        { st' with
          sessions := updateKey st'.sessions uuid { s with instances := s.instances - 1 } }) ∧
    (containsKey (sessionClose (sessionOpen st uuid fresh) uuid).sessions uuid = false ↔
      (openedSession st uuid fresh).state = SS_MISSING) ∧
    ((openedSession st uuid fresh).state ≠ SS_MISSING →
      lookupKey (sessionClose (sessionOpen st uuid fresh) uuid).sessions uuid =
        some { openedSession st uuid fresh with instances := 0 }) ∧
    ((openedSession st uuid fresh).state = SS_MISSING →
      containsKey (sessionClose (sessionOpen st uuid fresh) uuid).disk uuid = false) := by
  have hlu1 : lookupKey (sessionOpen st uuid fresh).sessions uuid =
      some (openedSession st uuid fresh) := by
    rw [sessionOpen_sessions]
    exact lookupKey_mapInsert st.sessions uuid (openedSession st uuid fresh)
  have hinst := openedSession_instances st uuid fresh h
  have hck1 : containsKey (sessionOpen st uuid fresh).sessions uuid = true :=
    containsKey_of_mem (mem_of_lookupKey hlu1)
  have hnodup : (((sessionOpen st uuid fresh).sessions).map Prod.fst).Nodup := by
    rw [sessionOpen_sessions]
    exact mapSorted_nodupKeys (mapInsert_sorted uuid (openedSession st uuid fresh) hs)
  have hred := sessionClose_of_lookup hlu1
  rw [if_neg (by rw [hinst]; omega)] at hred
  refine ⟨?_, ?_, ?_, ?_⟩
  · intro st' s hlu hgt
    rw [sessionClose_of_lookup hlu, if_pos (by omega)]
  · by_cases hstate : (openedSession st uuid fresh).state = SS_MISSING
    · rw [if_pos hstate] at hred
      rw [hred]
      constructor
      · intro _
        exact hstate
      · intro _
        rw [sessionDelete,
          if_pos (by rw [containsKey_updateKey]; exact hck1)]
        apply containsKey_eraseKey_of_nodup
        rw [keys_updateKey]
        exact hnodup
    · rw [if_neg hstate] at hred
      rw [hred]
      constructor
      · intro hfalse
        rw [containsKey_updateKey] at hfalse
        rw [hck1] at hfalse
        exact absurd hfalse (by simp)
      · intro hmiss
        exact absurd hmiss hstate
  · intro hstate
    rw [if_neg hstate] at hred
    rw [hred]
    have h1 := lookupKey_updateKey (sessionOpen st uuid fresh).sessions uuid
      { openedSession st uuid fresh with instances := 0 } hck1
    rw [hinst]
    norm_num
    exact h1
  · intro hstate
    rw [if_pos hstate] at hred
    rw [hred]
    rw [sessionDelete, if_pos (by rw [containsKey_updateKey]; exact hck1)]
    have hdisk : (sessionOpen st uuid fresh).disk = st.disk := sessionOpen_disk st uuid fresh
    rw [hdisk]
    exact containsKey_eraseKey_of_nodup hd

/-- Claim C4 witness. -/
theorem sessionClose_roundtrip_witness :
    sessionClose busyReg "w" =
      { sessions := [("w", { uuid := "w", vboxid := "", state := 2, instances := 4 })],
        openSessions := ["w"], disk := [] } ∧
    containsKey (sessionClose (sessionOpen emptyReg "m" freshMissing) "m").sessions "m"
      = false ∧
    lookupKey (sessionClose (sessionOpen emptyReg "v" freshLive) "v").sessions "v" =
      some { uuid := "v", vboxid := "", state := 2, instances := 0 } ∧
    containsKey (sessionClose (sessionOpen emptyReg "m" freshMissing) "m").disk "m"
      = false := by
  refine ⟨?_, ?_, ?_, ?_⟩
  · have h := (sessionClose_roundtrip emptyReg "w" freshLive (List.Pairwise.nil)
      (by simp [emptyReg]) (Or.inl rfl)).1 busyReg
      { uuid := "w", vboxid := "", state := 2, instances := 5 } (by decide) (by decide)
    exact h.trans (by decide)
  · exact (sessionClose_roundtrip emptyReg "m" freshMissing (List.Pairwise.nil)
      (by simp [emptyReg]) (Or.inl rfl)).2.1.mpr (by decide)
  · exact (sessionClose_roundtrip emptyReg "v" freshLive (List.Pairwise.nil)
      (by simp [emptyReg]) (Or.inl rfl)).2.2.1 (by decide)
  · exact (sessionClose_roundtrip emptyReg "m" freshMissing (List.Pairwise.nil)
      (by simp [emptyReg]) (Or.inl rfl)).2.2.2 (by decide)

/-- Claim C9 witness. -/
theorem getAllProperties_anchor_semantics_witness :
    parseGuestPropLine "no anchors here" = .ok none ∧
    parseGuestPropLine "Name: foo, value: bar, timestamp: 123" = .ok (some ("foo", "bar")) ∧
    parseGuestPropLine "Name: foo, value:, timestamp: 123" =
      .ok (some ("foo", " timestamp: 123")) ∧
    parseGuestPropLine "Name: a, timestamp: 1, value:" = .error () ∧
    getAllPropsGo ["no anchors here"] [] = getAllPropsGo [] [] :=
  ⟨(getAllProperties_anchor_semantics "no anchors here").1 (Or.inl (by decide)),
   (getAllProperties_anchor_semantics "Name: foo, value: bar, timestamp: 123").2.2.1
     0 9 21 (by decide) (by decide) (by decide) (by decide) (by decide) (by decide),
   (getAllProperties_anchor_semantics "Name: foo, value:, timestamp: 123").2.2.2.1
     0 9 17 (by decide) (by decide) (by decide) (by decide) (by decide) (by decide)
     (by decide),
   (getAllProperties_anchor_semantics "Name: a, timestamp: 1, value:").2.2.2.2.1
     0 21 7 (by decide) (by decide) (by decide) (by decide),
   (getAllProperties_anchor_semantics "no anchors here").2.2.2.2.2.1
     ((getAllProperties_anchor_semantics "no anchors here").1 (Or.inl (by decide))) [] []⟩

/-- Claim C10 witness. -/
theorem getProperty_total_behavior_witness :
    getProperty 1 ["whatever"] = some "" ∧
    getProperty 0 [] = some "" ∧
    getProperty 0 ["No value set!"] = some "" ∧
    getProperty 0 ["Value: hi"] = some "hi" :=
  ⟨(getProperty_total_behavior 1 ["whatever"]).1 (by decide),
   (getProperty_total_behavior 0 []).2.1 rfl,
   (getProperty_total_behavior 0 ["No value set!"]).2.2.1 "No value set!" [] rfl rfl
     (by decide),
   (getProperty_total_behavior 0 ["Value: hi"]).2.2.2.1 "Value: hi" [] rfl rfl
     (by decide) (by decide)⟩

/-- Claim C5 counterexample: calling `close()` on a registered session
whose openRefCount is already zero drives the counter to `-1`: the
unguarded `--session->instances` decrements first and only then compares
against zero, and the session (not in the `SS_MISSING` state) stays
registered with a negative count. -/
theorem sessionClose_zero_refcount_negative :
    lookupKey (sessionClose idleReg "u").sessions "u" =
      some { uuid := "u", vboxid := "", state := 1, instances := -1 } ∧
    ¬(0 : Int) ≤ -1 := by
  constructor
  · decide
  · decide

theorem nonnegCounts_iff (st : RegState) :
    nonnegCounts st = true ↔ ∀ p ∈ st.sessions, 0 ≤ p.2.instances := by
  simp [nonnegCounts]

theorem applyOp_nonneg (st : RegState) (op : RegOp)
    (h1 : nonnegCounts st = true) (h2 : closeSafe st op = true) :
    nonnegCounts (applyOp st op) = true := by
  rw [nonnegCounts_iff] at h1 ⊢
  cases op with
  | alloc g =>
    intro p hp
    simp only [applyOp, allocateSession] at hp
    rcases mem_mapInsert hp with hp | hp
    · rw [hp]
    · exact h1 p hp
  | checkout u f =>
    intro p hp
    simp only [applyOp, sessionOpen] at hp
    rcases mem_mapInsert hp with hp | hp
    · rw [hp]
      cases hlu : lookupKey st.sessions u with
      | none => simp [hlu]
      | some s =>
        have hs := h1 (u, s) (mem_of_lookupKey hlu)
        simp only at hs
        simp [hlu]
        omega
    · exact h1 p hp
  | close u =>
    simp only [closeSafe] at h2
    cases hlu : lookupKey st.sessions u with
    | none =>
      rw [hlu] at h2
      exact absurd h2 (by simp)
    | some s =>
      rw [hlu] at h2
      simp only [decide_eq_true_eq] at h2
      simp only [applyOp]
      rw [sessionClose_of_lookup hlu]
      by_cases hile : 0 < s.instances - 1
      · rw [if_pos hile]
        intro p hp
        rcases mem_updateKey hp with hp | hp
        · rw [hp]
          simp only
          omega
        · exact h1 p hp
      · rw [if_neg hile]
        by_cases hmiss : s.state = SS_MISSING
        · rw [if_pos hmiss]
          intro p hp
          have hp' := sessionDelete_sessions_sub hp
          rcases mem_updateKey hp' with hp' | hp'
          · rw [hp']
            simp only
            omega
          · exact h1 p hp'
        · rw [if_neg hmiss]
          intro p hp
          rcases mem_updateKey hp with hp | hp
          · rw [hp]
            simp only
            omega
          · exact h1 p hp
  | del u =>
    intro p hp
    simp only [applyOp] at hp
    exact h1 p (sessionDelete_sessions_sub hp)
  | reload a ps =>
    intro p hp
    simp only [applyOp] at hp
    have h0 := reloadSessions_mem (loadSessions_sessions_mem st a ps p hp)
    omega

/-- Claim C5 (amended): over every sequence of registry operations in
which `close()` is only invoked on sessions registered with a positive
openRefCount, no registered session's openRefCount ever becomes
negative. (As stated the claim is false: `close()` on a session with
openRefCount zero drives the counter to `-1` — see the
counterexample.) -/
theorem refcount_nonneg_of_balanced (st : RegState) (ops : List RegOp)
    (h1 : nonnegCounts st = true) (h2 : safeOps st ops = true) :
    nonnegCounts (applyOps st ops) = true := by
  induction ops generalizing st with
  | nil => simpa [applyOps] using h1
  | cons op ops ih =>
    rw [safeOps, Bool.and_eq_true] at h2
    rw [applyOps, List.foldl_cons]
    exact ih (applyOp st op) (applyOp_nonneg st op h1 h2.1) h2.2

/-- Claim C5 witness. -/
theorem refcount_nonneg_of_balanced_witness :
    nonnegCounts (applyOps emptyReg
      [RegOp.alloc "g", RegOp.checkout "g" freshLive, RegOp.close "g"]) = true :=
  refcount_nonneg_of_balanced emptyReg
    [RegOp.alloc "g", RegOp.checkout "g" freshLive, RegOp.close "g"] (by decide) (by decide)

/-- Claim C6 counterexample: with the extension pack absent, the license
accepted, and `installExtPack` failing (`HVE_NOT_VALIDATED`), the claim
says `waitTillReady` reports the failure rather than overall completion
and success — but the code ignores the installer's result: it still
reports `"Hypervisor is ready"` as complete and returns `true`. -/
theorem waitTillReady_install_failure_ignored :
    waitTillReady readyInstallFails =
      (true, [PEvent.doneEv "VirtualBox driver in place",
        PEvent.doneEv "Sessions are loaded",
        PEvent.completeEv "Hypervisor is ready"]) ∧
    readyInstallFails.installResult ≠ HVE_OK := by
  constructor
  · rfl
  · decide

/-- Claim C6 (amended): when the extension pack is absent and the UI
refuses the PUEL license, `waitTillReady` fails with the license-denied
reason and returns `false`; but when the license phase passes (UI absent
or license accepted) the workflow reports overall completion and returns
`true` regardless of `installExtPack`'s result — the install failure is
reported only on the installer's child progress task, never propagated
to the workflow's outcome. -/
theorem waitTillReady_license_and_install (inp : ReadyInput) :
    (inp.hasExtPack = false → inp.uiPresent = true → inp.licenseAccepted = false →
      waitTillReady inp =
        (false, readyBaseEvents inp ++ [PEvent.failEv "User denied Oracle PUEL license"])) ∧
    (inp.hasExtPack = false → (inp.uiPresent = true → inp.licenseAccepted = true) →
      waitTillReady inp =
        (true, readyBaseEvents inp ++ [PEvent.completeEv "Hypervisor is ready"])) := by
  constructor
  · intro h1 h2 h3
    rw [waitTillReady]
    simp [h1, h2, h3, readyBaseEvents]
  · intro h1 h2
    rw [waitTillReady]
    by_cases hui : inp.uiPresent = true
    · simp [h1, hui, h2 hui, readyBaseEvents]
    · simp only [Bool.not_eq_true] at hui
      simp [h1, hui, readyBaseEvents]

/-- Claim C6 witness. -/
theorem waitTillReady_license_and_install_witness :
    waitTillReady readyLicenseDenied =
      (false, [PEvent.doneEv "VirtualBox driver in place",
        PEvent.doneEv "Sessions are loaded",
        PEvent.failEv "User denied Oracle PUEL license"]) ∧
    waitTillReady readyInstallFails =
      (true, [PEvent.doneEv "VirtualBox driver in place",
        PEvent.doneEv "Sessions are loaded",
        PEvent.completeEv "Hypervisor is ready"]) :=
  ⟨(waitTillReady_license_and_install readyLicenseDenied).1 rfl rfl rfl,
   (waitTillReady_license_and_install readyInstallFails).2 rfl (fun _ => rfl)⟩

/-- Claim C7: whenever `installExtPack` reaches checksum validation (not
already installed, configuration fetched, both keys present, download
succeeded) and the computed checksum differs from the expected one, the
call returns `HVE_NOT_VALIDATED`, the installer command is never
invoked (so the extension pack remains absent afterwards), and the
temporary artifact is not deleted; moreover, across all runs, the
artifact is deleted only when the call returns `HVE_OK`. -/
theorem installExtPack_checksum_mismatch (inp : ExtPackInput)
    (h1 : inp.installed = false) (h2 : inp.fetchResult = HVE_OK)
    (h3 : containsKey inp.config (vboxVerString inp ++ "-extpack") = true)
    (h4 : containsKey inp.config (vboxVerString inp ++ "-extpackChecksum") = true)
    (h5 : inp.downloadResult = HVE_OK)
    (h6 : inp.checksum ≠
      (lookupKey inp.config (vboxVerString inp ++ "-extpackChecksum")).getD "") :
    installExtPack inp =
      { ret := HVE_NOT_VALIDATED, installerInvoked := false, artifactDeleted := false,
        installedAfter := false } ∧
    (∀ inp2 : ExtPackInput, (installExtPack inp2).artifactDeleted = true →
      (installExtPack inp2).ret = HVE_OK) := by
  constructor
  · rw [installExtPack]
    rw [if_neg (by rw [h1]; simp)]
    rw [if_neg (by rw [h2]; simp)]
    rw [if_neg (by rw [h3]; simp)]
    rw [if_neg (by rw [h4]; simp)]
    rw [if_neg (by rw [h5]; simp)]
    rw [if_pos h6]
  · intro inp2
    rw [installExtPack]
    split_ifs <;> simp

/-- Claim C7 witness. -/
theorem installExtPack_checksum_mismatch_witness :
    installExtPack extPackMismatch =
      { ret := HVE_NOT_VALIDATED, installerInvoked := false, artifactDeleted := false,
        installedAfter := false } ∧
    (∀ inp2 : ExtPackInput, (installExtPack inp2).artifactDeleted = true →
      (installExtPack inp2).ret = HVE_OK) :=
  installExtPack_checksum_mismatch extPackMismatch (by decide) (by decide) (by decide)
    (by decide) (by decide) (by decide)

end VBox
